import Mathlib

/-!
Verification development for the branch-protection-rule entity of a declarative
configuration tool (source file: otterdog/models/branch_protection_rule.py).

The development shallowly embeds the entity model, its cross-field validator
(`validate`), the provider decoding (`from_model` / `from_provider` with the
nested `transform_app` helper) and the provider encoding (`_to_provider`,
including the status-check codec and the actor-list codec), and proves the
documented properties about them.
-/

set_option autoImplicit false

namespace Otterdog

/-- Modelled from the spec: three-state field wrapper.  A field of the
declarative model is either absent (the UNSET sentinel of otterdog.utils),
set but invalid (Python None), or set to a valid value. -/
inductive FieldValue (α : Type) where
  | unset
  | invalid
  | val (a : α)
deriving DecidableEq

/-- Modelled from the spec: otterdog.utils.is_unset, true exactly on the UNSET sentinel. -/
def isUnsetFV {α : Type} : FieldValue α → Bool
  | .unset => true
  | _ => false

/-- Modelled from the spec: otterdog.utils.is_set_and_valid, true when the field
is neither the UNSET sentinel nor None. -/
def isSetAndValidFV {α : Type} : FieldValue α → Bool
  | .unset => false
  | .invalid => false
  | .val _ => true

/-- Python len applied to a valid list value; unreachable for unset/None values
because every use site is guarded by is_set_and_valid. -/
def fvLen {α : Type} : FieldValue (List α) → Nat
  | .val l => l.length
  | _ => 0

/-- The integer held by a set integer field; unreachable default otherwise
(every use site is guarded by an unset/None check). -/
def fvInt : FieldValue Int → Int
  | .val n => n
  | _ => 0

/-- Python f-string interpolation of a field value (the valid case is the one
exercised; the sentinel cases render as their Python repr). -/
def fvStr : FieldValue String → String
  | .val s => s
  | .unset => "UNSET"
  | .invalid => "None"

/-- The declarative entity, lines 21-45 of the source: one field per dataclass
field, each in the three-state wrapper. -/
structure BranchProtectionRule where
  id : FieldValue String
  pattern : FieldValue String
  allowsDeletions : FieldValue Bool
  allowsForcePushes : FieldValue Bool
  dismissesStaleReviews : FieldValue Bool
  isAdminEnforced : FieldValue Bool
  lockAllowsFetchAndMerge : FieldValue Bool
  lockBranch : FieldValue Bool
  bypassForcePushAllowances : FieldValue (List String)
  bypassPullRequestAllowances : FieldValue (List String)
  pushRestrictions : FieldValue (List String)
  requireLastPushApproval : FieldValue Bool
  requiredApprovingReviewCount : FieldValue Int
  requiresApprovingReviews : FieldValue Bool
  requiresCodeOwnerReviews : FieldValue Bool
  requiresCommitSignatures : FieldValue Bool
  requiresConversationResolution : FieldValue Bool
  requiresLinearHistory : FieldValue Bool
  requiresStatusChecks : FieldValue Bool
  requiresStrictStatusChecks : FieldValue Bool
  restrictsReviewDismissals : FieldValue Bool
  reviewDismissalAllowances : FieldValue (List String)
  requiredStatusChecks : FieldValue (List String)
deriving DecidableEq

/-- Modelled from the spec: FailureType of the validation context; only ERROR
is used by this entity. -/
inductive FailureType where
  | ERROR
deriving DecidableEq

/-- Modelled from the spec: a validation finding, a severity plus message. -/
abbrev Finding := FailureType × String

/-- The common message head of all four findings (the f-string of lines 56, 67, 77, 87). -/
def ruleRef (repoName pattern : String) : String :=
  "branch_protection_rule[repo=\"" ++ repoName ++ "\",pattern=\"" ++ pattern ++ "\"] has"

/-- Message of the approving-review check, lines 56-58. -/
def approvingReviewsMsg (repoName pattern : String) : String :=
  ruleRef repoName pattern ++
    " 'requiredApprovingReviews' enabled but 'requiredApprovingReviewCount' is not set."

/-- Message of the review-dismissal check, lines 67-68. -/
def reviewDismissalMsg (repoName pattern : String) : String :=
  ruleRef repoName pattern ++
    " 'restrictsReviewDismissals' disabled but 'reviewDismissalAllowances' is set."

/-- Message of the force-push check, lines 77-78. -/
def forcePushMsg (repoName pattern : String) : String :=
  ruleRef repoName pattern ++
    " 'allowsForcePushes' enabled but 'bypassForcePushAllowances' is not empty."

/-- Message of the status-check check, lines 87-88. -/
def statusChecksMsg (repoName pattern : String) : String :=
  ruleRef repoName pattern ++
    " 'requiresStatusChecks' disabled but 'requiredStatusChecks' is not empty."

/-- Guard of the first validate block (lines 50-54): requiresApprovingReviews is
True, requiredApprovingReviewCount is not unset, and the count is None or negative. -/
def cond1 (r : BranchProtectionRule) : Prop :=
  r.requiresApprovingReviews = .val true ∧
    ¬ (r.requiredApprovingReviewCount = FieldValue.unset) ∧
    (r.requiredApprovingReviewCount = FieldValue.invalid ∨ fvInt r.requiredApprovingReviewCount < 0)

/-- Guard of the second validate block (lines 60-65): restrictsReviewDismissals is
False and reviewDismissalAllowances is set, valid and non-empty. -/
def cond2 (r : BranchProtectionRule) : Prop :=
  r.restrictsReviewDismissals = .val false ∧
    isSetAndValidFV r.reviewDismissalAllowances = true ∧
    fvLen r.reviewDismissalAllowances > 0

/-- Guard of the third validate block (lines 70-75): allowsForcePushes is True
and bypassForcePushAllowances is set, valid and non-empty. -/
def cond3 (r : BranchProtectionRule) : Prop :=
  r.allowsForcePushes = .val true ∧
    isSetAndValidFV r.bypassForcePushAllowances = true ∧
    fvLen r.bypassForcePushAllowances > 0

/-- Guard of the fourth validate block (lines 80-85): requiresStatusChecks is
False and requiredStatusChecks is set, valid and non-empty. -/
def cond4 (r : BranchProtectionRule) : Prop :=
  r.requiresStatusChecks = .val false ∧
    isSetAndValidFV r.requiredStatusChecks = true ∧
    fvLen r.requiredStatusChecks > 0

instance (r : BranchProtectionRule) : Decidable (cond1 r) := by
  unfold cond1; infer_instance

instance (r : BranchProtectionRule) : Decidable (cond2 r) := by
  unfold cond2; infer_instance

instance (r : BranchProtectionRule) : Decidable (cond3 r) := by
  unfold cond3; infer_instance

instance (r : BranchProtectionRule) : Decidable (cond4 r) := by
  unfold cond4; infer_instance

/-- First validate block, lines 50-58. -/
def checkApprovingReviews (r : BranchProtectionRule) (repoName : String) : List Finding :=
  if cond1 r then [(FailureType.ERROR, approvingReviewsMsg repoName (fvStr r.pattern))] else []

/-- Second validate block, lines 60-68. -/
def checkReviewDismissals (r : BranchProtectionRule) (repoName : String) : List Finding :=
  if cond2 r then [(FailureType.ERROR, reviewDismissalMsg repoName (fvStr r.pattern))] else []

/-- Third validate block, lines 70-78. -/
def checkForcePushes (r : BranchProtectionRule) (repoName : String) : List Finding :=
  if cond3 r then [(FailureType.ERROR, forcePushMsg repoName (fvStr r.pattern))] else []

/-- Fourth validate block, lines 80-88. -/
def checkStatusChecks (r : BranchProtectionRule) (repoName : String) : List Finding :=
  if cond4 r then [(FailureType.ERROR, statusChecksMsg repoName (fvStr r.pattern))] else []

/-- The validate method, lines 47-88, as an explicit state transformer over the
instance and the validation context: the four blocks run in sequence, each
appending its finding (if any) to the context; the instance is never written. -/
def validateS (r : BranchProtectionRule) (repoName : String) (ctx : List Finding) :
    BranchProtectionRule × List Finding :=
  (r, ctx ++ checkApprovingReviews r repoName ++ checkReviewDismissals r repoName
        ++ checkForcePushes r repoName ++ checkStatusChecks r repoName)

/-- The findings validate adds to an initially-empty validation context. -/
def findings (r : BranchProtectionRule) (repoName : String) : List Finding :=
  (validateS r repoName []).2

/-- Occurrence count of a finding in a findings list. -/
def countFinding (t : Finding) : List Finding → Nat
  | [] => 0
  | f :: fs => (if f = t then 1 else 0) + countFinding t fs

/-- A rule instance with every field unset: the template the concrete
test instances below are built from. -/
def emptyRule : BranchProtectionRule :=
  { id := .unset, pattern := .unset, allowsDeletions := .unset, allowsForcePushes := .unset
    dismissesStaleReviews := .unset, isAdminEnforced := .unset, lockAllowsFetchAndMerge := .unset
    lockBranch := .unset, bypassForcePushAllowances := .unset, bypassPullRequestAllowances := .unset
    pushRestrictions := .unset, requireLastPushApproval := .unset
    requiredApprovingReviewCount := .unset, requiresApprovingReviews := .unset
    requiresCodeOwnerReviews := .unset, requiresCommitSignatures := .unset
    requiresConversationResolution := .unset, requiresLinearHistory := .unset
    requiresStatusChecks := .unset, requiresStrictStatusChecks := .unset
    restrictsReviewDismissals := .unset, reviewDismissalAllowances := .unset
    requiredStatusChecks := .unset }

/-- Split a character list at its first colon: the part before and the part
after.  Returns none when no colon occurs. -/
def splitFirstAux : List Char → Option (List Char × List Char)
  | [] => none
  | c :: cs =>
    if c = ':' then some ([], cs)
    else
      match splitFirstAux cs with
      | some (l, r) => some (c :: l, r)
      | none => none

/-- Python re.split(":", s, 1) together with the `":" in s` test: some (lhs, rhs)
when the string contains a colon (split at the first one), none otherwise. -/
def splitFirstColon (s : String) : Option (String × String) :=
  match splitFirstAux s.data with
  | some (l, r) => some (String.mk l, String.mk r)
  | none => none

/-- The nested transform_app helper of from_provider, lines 99-112: decode a
provider status-check object (app reference, possibly absent, plus context)
into one declarative token. -/
def transform_app (app : Option String) (context : String) : String :=
  match app with
  | none => "any:" ++ context
  | some app_slug =>
    if app_slug = "github-actions" then context else app_slug ++ ":" ++ context

/-- The provider wire shape of one required status check. -/
structure StatusCheck where
  appId : String
  context : String
deriving DecidableEq

/-- Modelled from the spec: the Identifier Resolver interface.  actorId is the
per-reference resolution underlying the order-preserving resolveActorIds call;
appId is the per-slug mapping returned by the batched resolveAppIds call. -/
structure Provider where
  actorId : String → String
  appId : String → String

/-- The first pass of the requiredStatusChecks branch of _to_provider,
lines 162-171: collect the set of app slugs to resolve. -/
def collectAppSlugs (checks : List String) : Finset String :=
  checks.foldl
    (fun app_slugs check =>
      match splitFirstColon check with
      | some (app_slug, _) =>
        if app_slug = "any" then app_slugs else insert app_slug app_slugs
      | none => insert "github-actions" app_slugs)
    ∅

/-- The second pass of the requiredStatusChecks branch of _to_provider,
lines 176-186: encode one token into the wire shape, using the mapping
returned by the batched resolver call. -/
def encodeCheck (app_ids : String → String) (check : String) : StatusCheck :=
  let sc :=
    match splitFirstColon check with
    | some (app_slug, context) => (app_slug, context)
    | none => ("github-actions", check)
  if sc.1 = "any" then { appId := "any", context := sc.2 }
  else { appId := app_ids sc.1, context := sc.2 }

/-- Spec-side: the app slug a declarative token references (the part before the
first colon, or the default-automation slug for a bare token). -/
def tokenSlugOf (t : String) : String :=
  match splitFirstColon t with
  | some (s, _) => s
  | none => "github-actions"

/-- Spec-side: the context a declarative token references (the part after the
first colon, or the whole bare token). -/
def tokenCtxOf (t : String) : String :=
  match splitFirstColon t with
  | some (_, c) => c
  | none => t

/-- Dynamic JSON-like values exchanged with the projection engine: the UNSET
sentinel, Python None, scalars, lists, provider status-check objects
(a possibly-absent app reference plus a context) and wire status-check
objects (an appId plus a context). -/
inductive JVal where
  | unset
  | null
  | bool (b : Bool)
  | int (n : Int)
  | str (s : String)
  | list (xs : List JVal)
  | pcheck (app : Option String) (context : String)
  | wcheck (appId : String) (context : String)

/-- A Python dict, as an association list with the first binding of a key
authoritative (keys are unique in every dict the code builds). -/
abbrev JDict := List (String × JVal)

/-- Python dict lookup returning an optional value. -/
def alookup {β : Type} : List (String × β) → String → Option β
  | [], _ => none
  | (k', v) :: rest, k => if k = k' then some v else alookup rest k

/-- Python `k in d`. -/
def containsKey {β : Type} (d : List (String × β)) (k : String) : Bool :=
  (alookup d k).isSome

/-- Python `d.get(k, UNSET)`. -/
def dataGetD (data : JDict) (k : String) : JVal :=
  (alookup data k).getD .unset

/-- Modelled from the spec: otterdog.utils.is_unset on a dynamic value. -/
def isUnsetJ : JVal → Bool
  | .unset => true
  | _ => false

/-- Modelled from the spec: otterdog.utils.is_set_and_valid on a dynamic value. -/
def isSetAndValidJ : JVal → Bool
  | .unset => false
  | .null => false
  | _ => true

/-- Read a list of Python strings out of a dynamic value, if it is one. -/
def strList? : List JVal → Option (List String)
  | [] => some []
  | .str s :: rest =>
    match strList? rest with
    | some l => some (s :: l)
    | none => none
  | _ :: _ => none

/-- Read a list-of-strings value, if the dynamic value is one. -/
def asStrList : JVal → Option (List String)
  | .list xs => strList? xs
  | _ => none

/-- Conversion and resolution failures, §7 of the spec: a missing provider
field, a Python KeyError on dict.pop, and a shape mismatch. -/
inductive ConvError where
  | missingField (k : String)
  | keyError (k : String)
  | typeError
deriving DecidableEq

/-- The declared field names of the entity, in dataclass order (lines 23-45). -/
def allFieldNames : List String :=
  ["id", "pattern", "allowsDeletions", "allowsForcePushes", "dismissesStaleReviews",
   "isAdminEnforced", "lockAllowsFetchAndMerge", "lockBranch", "bypassForcePushAllowances",
   "bypassPullRequestAllowances", "pushRestrictions", "requireLastPushApproval",
   "requiredApprovingReviewCount", "requiresApprovingReviews", "requiresCodeOwnerReviews",
   "requiresCommitSignatures", "requiresConversationResolution", "requiresLinearHistory",
   "requiresStatusChecks", "requiresStrictStatusChecks", "restrictsReviewDismissals",
   "reviewDismissalAllowances", "requiredStatusChecks"]

/-- Modelled from the spec: the provider-write-eligible fields are the declared
fields that are not external-only; id (line 23) is the only external-only field. -/
def providerFieldNames : List String :=
  allFieldNames.filter (fun k => decide (k ≠ "id"))

/-- from_model, lines 90-93: each declared field is projected with
OptionalS(name, default=UNSET), so an absent key yields the UNSET sentinel. -/
def from_model (data : JDict) : JDict :=
  allFieldNames.map (fun k => (k, dataGetD data k))

/-- The element-wise application of transform_app performed by the Forall
bender of from_provider (line 114) on one list element. -/
def transformAppJ : JVal → Except ConvError JVal
  | .pcheck app context => .ok (.str (transform_app app context))
  | _ => .error .typeError

/-- The element-wise application of transform_app over a whole list value. -/
def mapTransformApp : List JVal → Except ConvError (List JVal)
  | [] => .ok []
  | v :: rest =>
    match transformAppJ v with
    | .error e => .error e
    | .ok v2 =>
      match mapTransformApp rest with
      | .error e => .error e
      | .ok tl => .ok (v2 :: tl)

/-- The S("requiredStatusChecks") >> Forall(transform_app) bender, line 114,
applied after the key has been fetched. -/
def forallTransformApp : JVal → Except ConvError JVal
  | .list xs =>
    match mapTransformApp xs with
    | .ok ys => .ok (.list ys)
    | .error e => .error e
  | _ => .error .typeError

/-- The per-field bender of from_provider: plain S(k) for every field, composed
with the Forall transform for requiredStatusChecks (lines 97, 114). -/
def fieldTransform (k : String) (v : JVal) : Except ConvError JVal :=
  if k = "requiredStatusChecks" then forallTransformApp v else .ok v

/-- Modelled from the spec: the jsonbender bend step of from_provider (line 116);
each field is fetched with S(k), which fails on a missing key, the first
failure propagating (fields are evaluated in declaration order). -/
def bendFields (fields : List String) (data : JDict) : Except ConvError JDict :=
  match fields with
  | [] => .ok []
  | k :: rest =>
    match alookup data k with
    | none => .error (.missingField k)
    | some v =>
      match fieldTransform k v with
      | .error e => .error e
      | .ok v2 =>
        match bendFields rest data with
        | .error e => .error e
        | .ok tl => .ok ((k, v2) :: tl)

/-- from_provider, lines 95-116: every declared field is required. -/
def from_provider (data : JDict) : Except ConvError JDict :=
  bendFields allFieldNames data

/-- A jsonbender bender as used by _to_provider: a source-key fetch S(k) or a
constant injection K(v). -/
inductive Bender where
  | S (k : String)
  | K (v : JVal)

/-- Evaluation of a bender against the source dict (the final bend, line 190). -/
def evalBender (data : JDict) : Bender → JVal
  | .S k => dataGetD data k
  | .K v => v

/-- The mapping comprehension of _to_provider, lines 120-121: one S(name)
bender per provider field whose value in data is present and not UNSET. -/
def initialMappingAux (data : JDict) : List String → List (String × Bender)
  | [] => []
  | k :: rest =>
    if isUnsetJ (dataGetD data k) then initialMappingAux data rest
    else (k, Bender.S k) :: initialMappingAux data rest

/-- The initial _to_provider mapping over the provider-write-eligible fields. -/
def initialMapping (data : JDict) : List (String × Bender) :=
  initialMappingAux data providerFieldNames

/-- Python mapping.pop(k): removes the key, raising KeyError when absent. -/
def popKey (m : List (String × Bender)) (k : String) :
    Except ConvError (List (String × Bender)) :=
  if containsKey m k then .ok (m.filter (fun kv => decide (kv.1 ≠ k)))
  else .error (.keyError k)

/-- The pushRestrictions block of _to_provider, lines 123-130: pop the
human-readable field, and when it is set and valid resolve the actor list and
inject pushActorIds plus the derived restrictsPushes flag. -/
def pushRestrictionsBlock (p : Provider) (data : JDict) (m : List (String × Bender))
    (alog : List (List String)) :
    Except ConvError (List (String × Bender) × List (List String)) :=
  if containsKey data "pushRestrictions" then
    match popKey m "pushRestrictions" with
    | .error e => .error e
    | .ok m1 =>
      let v := dataGetD data "pushRestrictions"
      if isSetAndValidJ v then
        match asStrList v with
        | some refs =>
          let actor_ids := refs.map p.actorId
          .ok (m1 ++
                [("pushActorIds", Bender.K (JVal.list (actor_ids.map JVal.str))),
                 ("restrictsPushes",
                  Bender.K (JVal.bool (if actor_ids.length > 0 then true else false)))],
               alog ++ [refs])
        | none => .error .typeError
      else .ok (m1, alog)
  else .ok (m, alog)

/-- The three identical allowance blocks of _to_provider (lines 132-138,
140-146, 148-154), parameterised by the source field name and the injected
actor-id field name: pop the human-readable field, and when set and valid
resolve the actor list and inject the resolved ids. -/
def actorBlock (p : Provider) (data : JDict) (fn tn : String) (m : List (String × Bender))
    (alog : List (List String)) :
    Except ConvError (List (String × Bender) × List (List String)) :=
  if containsKey data fn then
    match popKey m fn with
    | .error e => .error e
    | .ok m1 =>
      let v := dataGetD data fn
      if isSetAndValidJ v then
        match asStrList v with
        | some refs =>
          .ok (m1 ++ [(tn, Bender.K (JVal.list ((refs.map p.actorId).map JVal.str)))],
               alog ++ [refs])
        | none => .error .typeError
      else .ok (m1, alog)
  else .ok (m, alog)

/-- Wire rendering of one encoded status check as a dynamic value. -/
def checkToJVal (sc : StatusCheck) : JVal :=
  .wcheck sc.appId sc.context

/-- The requiredStatusChecks block of _to_provider, lines 156-188: pop the
token list, and when it is set and valid collect the slug set, make the one
batched resolver call (recorded in the query log) and re-inject the encoded
wire list. -/
def statusChecksBlock (p : Provider) (data : JDict) (m : List (String × Bender))
    (qlog : List (Finset String)) :
    Except ConvError (List (String × Bender) × List (Finset String)) :=
  if containsKey data "requiredStatusChecks" then
    match popKey m "requiredStatusChecks" with
    | .error e => .error e
    | .ok m1 =>
      let v := dataGetD data "requiredStatusChecks"
      if isSetAndValidJ v then
        match asStrList v with
        | some checks =>
          let app_slugs := collectAppSlugs checks
          let transformed := checks.map (encodeCheck p.appId)
          .ok (m1 ++ [("requiredStatusChecks",
                       Bender.K (JVal.list (transformed.map checkToJVal)))],
               qlog ++ [app_slugs])
        | none => .error .typeError
      else .ok (m1, qlog)
  else .ok (m, qlog)

/-- _to_provider, lines 118-190: the five blocks run in source order over the
mapping, then the final bend evaluates every remaining bender against data.
Besides the payload, the embedding returns the log of actor-resolution calls
and the log of app-id resolution calls (argument per call, in call order). -/
def to_provider (p : Provider) (data : JDict) :
    Except ConvError (JDict × List (List String) × List (Finset String)) :=
  match pushRestrictionsBlock p data (initialMapping data) [] with
  | .error e => .error e
  | .ok (m1, alog1) =>
    match actorBlock p data "reviewDismissalAllowances" "reviewDismissalActorIds" m1 alog1 with
    | .error e => .error e
    | .ok (m2, alog2) =>
      match actorBlock p data "bypassPullRequestAllowances" "bypassPullRequestActorIds" m2 alog2 with
      | .error e => .error e
      | .ok (m3, alog3) =>
        match actorBlock p data "bypassForcePushAllowances" "bypassForcePushActorIds" m3 alog3 with
        | .error e => .error e
        | .ok (m4, alog4) =>
          match statusChecksBlock p data m4 [] with
          | .error e => .error e
          | .ok (m5, qlog) =>
            .ok (m5.map (fun kv => (kv.1, evalBender data kv.2)), alog4, qlog)

/-- Concrete rule exercising the first validate block with an unset count. -/
def ruleC1unset : BranchProtectionRule :=
  { emptyRule with pattern := .val "main", requiresApprovingReviews := .val true }

/-- Concrete rule with the count set to 2. -/
def ruleC1two : BranchProtectionRule :=
  { ruleC1unset with requiredApprovingReviewCount := .val 2 }

/-- Concrete rule with the count set to a negative value. -/
def ruleC1neg : BranchProtectionRule :=
  { ruleC1unset with requiredApprovingReviewCount := .val (-1) }

/-- A concrete resolver mapping used by witnesses. -/
def wAppIds : String → String := fun s => s ++ "-app-id"

/-- Concrete rule with review dismissals permitted and a non-empty allowance list. -/
def rulePair2 : BranchProtectionRule :=
  { emptyRule with
    pattern := .val "main", restrictsReviewDismissals := .val false,
    reviewDismissalAllowances := .val ["alice"] }

/-- Variant of rulePair2 with an empty allowance list. -/
def rulePair2e : BranchProtectionRule :=
  { rulePair2 with reviewDismissalAllowances := .val [] }

/-- Concrete rule with force pushes allowed and a non-empty bypass list. -/
def rulePair3 : BranchProtectionRule :=
  { emptyRule with
    pattern := .val "main", allowsForcePushes := .val true,
    bypassForcePushAllowances := .val ["bob"] }

/-- Variant of rulePair3 with the bypass list unset. -/
def rulePair3u : BranchProtectionRule :=
  { rulePair3 with bypassForcePushAllowances := .unset }

/-- Concrete rule with status checks not required and a non-empty check list. -/
def rulePair4 : BranchProtectionRule :=
  { emptyRule with
    pattern := .val "main", requiresStatusChecks := .val false,
    requiredStatusChecks := .val ["ci"] }

/-- Variant of rulePair4 with the check list set to None. -/
def rulePair4i : BranchProtectionRule :=
  { rulePair4 with requiredStatusChecks := .invalid }

/-- A raw-config dict holding only the pattern key. -/
def wDataC8 : JDict := [("pattern", JVal.str "main")]

/-- A concrete resolver used by the to_provider witnesses. -/
def wProvC : Provider := { actorId := fun s => s ++ "-id", appId := fun s => s ++ "#id" }

/-- Model data with a set, valid, non-empty pushRestrictions list. -/
def wDataC6 : JDict :=
  [("pattern", JVal.str "main"), ("pushRestrictions", JVal.list [JVal.str "team-a"])]

/-- The payload to_provider produces from wDataC6 under wProvC. -/
def wPayloadC6 : JDict :=
  [("pattern", JVal.str "main"),
   ("pushActorIds", JVal.list [JVal.str "team-a-id"]),
   ("restrictsPushes", JVal.bool true)]

/-- Model data with a set, valid requiredStatusChecks token list covering the
sentinel, a named slug and a bare token. -/
def wDataC5 : JDict :=
  [("pattern", JVal.str "main"),
   ("requiredStatusChecks",
    JVal.list [JVal.str "any:ci", JVal.str "myapp:build", JVal.str "deploy"])]

/-- The payload to_provider produces from wDataC5 under wProvC. -/
def wPayloadC5 : JDict :=
  [("pattern", JVal.str "main"),
   ("requiredStatusChecks",
    JVal.list [JVal.wcheck "any" "ci", JVal.wcheck "myapp#id" "build",
               JVal.wcheck "github-actions#id" "deploy"])]

end Otterdog

namespace Otterdog

theorem splitFirstAux_append (pre : List Char) (h : ':' ∉ pre) (rest : List Char) :
    splitFirstAux (pre ++ ':' :: rest) = some (pre, rest) := by
  induction pre with
  | nil => simp [splitFirstAux]
  | cons c cs ih =>
    have hc : ¬ (c = ':') := fun hEq => h (hEq ▸ List.mem_cons_self c cs)
    have hcs : ':' ∉ cs := fun hm => h (List.mem_cons_of_mem c hm)
    simp [splitFirstAux, hc, ih hcs]

theorem splitFirstAux_none (l : List Char) (h : ':' ∉ l) : splitFirstAux l = none := by
  induction l with
  | nil => rfl
  | cons c cs ih =>
    have hc : ¬ (c = ':') := fun hEq => h (hEq ▸ List.mem_cons_self c cs)
    have hcs : ':' ∉ cs := fun hm => h (List.mem_cons_of_mem c hm)
    simp [splitFirstAux, hc, ih hcs]

theorem string_mk_data (s : String) : String.mk s.data = s := rfl

theorem splitFirstColon_append_colon (s c : String) (h : ':' ∉ s.data) :
    splitFirstColon (s ++ ":" ++ c) = some (s, c) := by
  have hd : (s ++ ":" ++ c).data = s.data ++ ':' :: c.data := by
    simp [String.data_append]
  unfold splitFirstColon
  rw [hd, splitFirstAux_append s.data h c.data]

theorem splitFirstColon_any (c : String) : splitFirstColon ("any:" ++ c) = some ("any", c) := by
  have hd : ("any:" ++ c).data = "any".data ++ ':' :: c.data := by
    simp [String.data_append]
  unfold splitFirstColon
  rw [hd, splitFirstAux_append "any".data (by decide) c.data]

theorem splitFirstColon_none (s : String) (h : ':' ∉ s.data) : splitFirstColon s = none := by
  unfold splitFirstColon
  rw [splitFirstAux_none s.data h]

/-- Claim C1 (code divergence): with requiresApprovingReviews enabled and
requiredApprovingReviewCount unset, validate adds no finding at all, because
the guard on line 53 requires the count NOT to be unset before the
"is not set" failure can fire; the finding appears only when the count is
set to None or a negative value, and a count of 2 yields no finding. -/
theorem C1_unset_count_not_flagged :
    findings ruleC1unset "test-repo" = [] ∧
    findings ruleC1two "test-repo" = [] ∧
    findings ruleC1neg "test-repo" =
      [(FailureType.ERROR, approvingReviewsMsg "test-repo" "main")] :=
  ⟨rfl, rfl, rfl⟩

/-- Claim C2: the nested transform_app helper of from_provider decodes a
provider status-check object to a single token: absent app gives an
"any:"-prefixed context, the default-automation slug github-actions gives the
bare context, and any other slug s gives an "s:"-prefixed context. -/
theorem C2_from_provider_token_decoding (c : String) :
    transform_app none c = "any:" ++ c ∧
    transform_app (some "github-actions") c = c ∧
    (∀ s : String, s ≠ "github-actions" → transform_app (some s) c = s ++ ":" ++ c) := by
  refine ⟨rfl, ?_, ?_⟩
  · simp [transform_app]
  · intro s hs
    simp [transform_app, hs]

theorem C2_from_provider_token_decoding_witness :
    transform_app (some "myapp") "ci" = "myapp" ++ ":" ++ "ci" :=
  (C2_from_provider_token_decoding "ci").2.2 "myapp" (by decide)

/-- Claim C3: the per-token encoder of the requiredStatusChecks branch of
_to_provider splits a token at its first colon: a bare token is attributed to
the default-automation app github-actions with the whole token as context; a
token with left-hand side the literal any maps to the sentinel appId "any";
any other left-hand side maps to the resolved id for that slug. -/
theorem C3_to_provider_token_encoding (app_ids : String → String) :
    (∀ t : String, ':' ∉ t.data →
      encodeCheck app_ids t = { appId := app_ids "github-actions", context := t }) ∧
    (∀ c : String, encodeCheck app_ids ("any:" ++ c) = { appId := "any", context := c }) ∧
    (∀ s c : String, ':' ∉ s.data → s ≠ "any" →
      encodeCheck app_ids (s ++ ":" ++ c) = { appId := app_ids s, context := c }) := by
  refine ⟨?_, ?_, ?_⟩
  · intro t ht
    simp [encodeCheck, splitFirstColon_none t ht]
  · intro c
    simp [encodeCheck, splitFirstColon_any c]
  · intro s c hs hsAny
    simp [encodeCheck, splitFirstColon_append_colon s c hs, hsAny]

theorem C3_to_provider_token_encoding_witness :
    encodeCheck wAppIds "deploy" = { appId := wAppIds "github-actions", context := "deploy" } ∧
    encodeCheck wAppIds ("myapp" ++ ":" ++ "build") = { appId := wAppIds "myapp", context := "build" } :=
  ⟨(C3_to_provider_token_encoding wAppIds).1 "deploy" (by decide),
   (C3_to_provider_token_encoding wAppIds).2.2 "myapp" "build" (by decide) (by decide)⟩

/-- Claim C4: round-trip elision of the status-check codec.  Encoding an
"any:"-prefixed token and decoding the resulting wire shape with the app
absent restores the token; encoding a bare token and decoding with the
default-automation slug restores it; and for any other colon-free slug s,
encoding "s:context" and decoding with slug s restores the token. -/
theorem C4_round_trip_elision (app_ids : String → String) (c : String) :
    transform_app none (encodeCheck app_ids ("any:" ++ c)).context = "any:" ++ c ∧
    (':' ∉ c.data →
      transform_app (some "github-actions") (encodeCheck app_ids c).context = c) ∧
    (∀ s : String, ':' ∉ s.data → s ≠ "github-actions" → s ≠ "any" →
      transform_app (some s) (encodeCheck app_ids (s ++ ":" ++ c)).context = s ++ ":" ++ c) := by
  refine ⟨?_, ?_, ?_⟩
  · simp [encodeCheck, splitFirstColon_any c, transform_app]
  · intro hc
    simp [encodeCheck, splitFirstColon_none c hc, transform_app]
  · intro s hs hsGh hsAny
    simp [encodeCheck, splitFirstColon_append_colon s c hs, hsAny, transform_app, hsGh]

theorem C4_round_trip_elision_witness :
    transform_app none (encodeCheck wAppIds ("any:" ++ "ci")).context = "any:" ++ "ci" ∧
    transform_app (some "github-actions") (encodeCheck wAppIds "ci").context = "ci" ∧
    transform_app (some "myapp") (encodeCheck wAppIds ("myapp" ++ ":" ++ "ci")).context =
      "myapp" ++ ":" ++ "ci" :=
  ⟨(C4_round_trip_elision wAppIds "ci").1,
   (C4_round_trip_elision wAppIds "ci").2.1 (by decide),
   (C4_round_trip_elision wAppIds "ci").2.2 "myapp" (by decide) (by decide) (by decide)⟩

theorem union_erase_insert_ne (acc S : Finset String) (sl : String) (hAny : sl ≠ "any") :
    insert sl acc ∪ S.erase "any" = acc ∪ (insert sl S).erase "any" := by
  ext x
  simp only [Finset.mem_union, Finset.mem_insert, Finset.mem_erase]
  constructor
  · rintro ((h | h) | ⟨h1, h2⟩)
    · exact Or.inr ⟨h ▸ hAny, Or.inl h⟩
    · exact Or.inl h
    · exact Or.inr ⟨h1, Or.inr h2⟩
  · rintro (h | ⟨h1, (h2 | h2)⟩)
    · exact Or.inl (Or.inr h)
    · exact Or.inl (Or.inl h2)
    · exact Or.inr ⟨h1, h2⟩

theorem union_erase_insert_any (acc S : Finset String) :
    acc ∪ S.erase "any" = acc ∪ (insert "any" S).erase "any" := by
  ext x
  simp only [Finset.mem_union, Finset.mem_erase, Finset.mem_insert]
  constructor
  · rintro (h | ⟨h1, h2⟩)
    · exact Or.inl h
    · exact Or.inr ⟨h1, Or.inr h2⟩
  · rintro (h | ⟨h1, (h2 | h2)⟩)
    · exact Or.inl h
    · exact absurd h2 h1
    · exact Or.inr ⟨h1, h2⟩

theorem collectAppSlugs_foldl (checks : List String) (acc : Finset String) :
    checks.foldl
      (fun app_slugs check =>
        match splitFirstColon check with
        | some (app_slug, _) =>
          if app_slug = "any" then app_slugs else insert app_slug app_slugs
        | none => insert "github-actions" app_slugs)
      acc
    = acc ∪ ((checks.map tokenSlugOf).toFinset.erase "any") := by
  induction checks generalizing acc with
  | nil => simp
  | cons t ts ih =>
    rw [List.foldl_cons, ih]
    rcases hsplit : splitFirstColon t with _ | ⟨sl, rest⟩
    · have hslug : tokenSlugOf t = "github-actions" := by simp [tokenSlugOf, hsplit]
      simp only [hsplit, List.map_cons, hslug, List.toFinset_cons]
      exact union_erase_insert_ne acc _ _ (by decide)
    · have hslug : tokenSlugOf t = sl := by simp [tokenSlugOf, hsplit]
      by_cases hAny : sl = "any"
      · simp only [hsplit, List.map_cons, hslug, hAny, List.toFinset_cons, if_pos]
        exact union_erase_insert_any acc _
      · simp only [hsplit, List.map_cons, hslug, List.toFinset_cons, if_neg hAny]
        exact union_erase_insert_ne acc _ sl hAny

theorem collectAppSlugs_eq (checks : List String) :
    collectAppSlugs checks = (checks.map tokenSlugOf).toFinset.erase "any" := by
  unfold collectAppSlugs
  rw [collectAppSlugs_foldl]
  simp

/-- Claim C10: an app whose slug is literally any is conflated with the
match-all sentinel.  Decoding slug any yields the token "any:context"; the
encoder maps that token back to the sentinel wire shape with appId "any"
regardless of the resolver mapping; and the batched slug collection never
contains "any", so the resolver is never queried for that slug and a real
app id for it cannot survive the decode/encode cycle. -/
theorem C10_any_slug_conflation :
    (∀ c : String, transform_app (some "any") c = "any:" ++ c) ∧
    (∀ (app_ids : String → String) (c : String),
      encodeCheck app_ids ("any:" ++ c) = { appId := "any", context := c }) ∧
    (∀ checks : List String, "any" ∉ collectAppSlugs checks) := by
  refine ⟨?_, ?_, ?_⟩
  · intro c
    simp [transform_app]
  · intro app_ids c
    simp [encodeCheck, splitFirstColon_any c]
  · intro checks
    rw [collectAppSlugs_eq]
    simp

/-- Claim C9: validate is a pure read-only pass over the instance: the instance
component of the state is returned unchanged, only findings are appended to
the context, and the four invariant checks run unconditionally, so the number
of findings added is exactly the number of violated check conditions. -/
theorem C9_validate_frame_and_independence (r : BranchProtectionRule) (repoName : String)
    (ctx : List Finding) :
    (validateS r repoName ctx).1 = r ∧
    (validateS r repoName ctx).2.length =
      ctx.length + ((if cond1 r then 1 else 0) + (if cond2 r then 1 else 0) +
        (if cond3 r then 1 else 0) + (if cond4 r then 1 else 0)) := by
  refine ⟨rfl, ?_⟩
  unfold validateS checkApprovingReviews checkReviewDismissals checkForcePushes checkStatusChecks
  split_ifs <;> simp [List.length_append]

theorem countFinding_append (t : Finding) (xs ys : List Finding) :
    countFinding t (xs ++ ys) = countFinding t xs + countFinding t ys := by
  induction xs with
  | nil => simp [countFinding]
  | cons f fs ih =>
    show (if f = t then 1 else 0) + countFinding t (fs ++ ys)
      = ((if f = t then 1 else 0) + countFinding t fs) + countFinding t ys
    rw [ih]
    omega

theorem countFinding_if_singleton (t f : Finding) (c : Prop) [Decidable c] :
    countFinding t (if c then [f] else []) = if c then (if f = t then 1 else 0) else 0 := by
  split <;> simp [countFinding]

theorem string_append_left_cancel (x a b : String) (h : x ++ a = x ++ b) : a = b := by
  have hd := congrArg String.data h
  simp only [String.data_append] at hd
  exact String.ext (List.append_cancel_left hd)

theorem msgNe12 (repo pat : String) : approvingReviewsMsg repo pat ≠ reviewDismissalMsg repo pat := by
  intro h
  exact absurd (string_append_left_cancel _ _ _ h) (by decide)

theorem msgNe13 (repo pat : String) : approvingReviewsMsg repo pat ≠ forcePushMsg repo pat := by
  intro h
  exact absurd (string_append_left_cancel _ _ _ h) (by decide)

theorem msgNe14 (repo pat : String) : approvingReviewsMsg repo pat ≠ statusChecksMsg repo pat := by
  intro h
  exact absurd (string_append_left_cancel _ _ _ h) (by decide)

theorem msgNe23 (repo pat : String) : reviewDismissalMsg repo pat ≠ forcePushMsg repo pat := by
  intro h
  exact absurd (string_append_left_cancel _ _ _ h) (by decide)

theorem msgNe24 (repo pat : String) : reviewDismissalMsg repo pat ≠ statusChecksMsg repo pat := by
  intro h
  exact absurd (string_append_left_cancel _ _ _ h) (by decide)

theorem msgNe34 (repo pat : String) : forcePushMsg repo pat ≠ statusChecksMsg repo pat := by
  intro h
  exact absurd (string_append_left_cancel _ _ _ h) (by decide)

theorem count_checkApproving (m : String) (r : BranchProtectionRule) (repo : String)
    (h : approvingReviewsMsg repo (fvStr r.pattern) ≠ m) :
    countFinding (FailureType.ERROR, m) (checkApprovingReviews r repo) = 0 := by
  unfold checkApprovingReviews
  rw [countFinding_if_singleton]
  split
  · rw [if_neg]
    intro hEq
    exact h (congrArg Prod.snd hEq)
  · rfl

theorem count_checkReviewDismissals (m : String) (r : BranchProtectionRule) (repo : String)
    (h : reviewDismissalMsg repo (fvStr r.pattern) ≠ m) :
    countFinding (FailureType.ERROR, m) (checkReviewDismissals r repo) = 0 := by
  unfold checkReviewDismissals
  rw [countFinding_if_singleton]
  split
  · rw [if_neg]
    intro hEq
    exact h (congrArg Prod.snd hEq)
  · rfl

theorem count_checkForcePushes (m : String) (r : BranchProtectionRule) (repo : String)
    (h : forcePushMsg repo (fvStr r.pattern) ≠ m) :
    countFinding (FailureType.ERROR, m) (checkForcePushes r repo) = 0 := by
  unfold checkForcePushes
  rw [countFinding_if_singleton]
  split
  · rw [if_neg]
    intro hEq
    exact h (congrArg Prod.snd hEq)
  · rfl

theorem count_checkStatusChecks (m : String) (r : BranchProtectionRule) (repo : String)
    (h : statusChecksMsg repo (fvStr r.pattern) ≠ m) :
    countFinding (FailureType.ERROR, m) (checkStatusChecks r repo) = 0 := by
  unfold checkStatusChecks
  rw [countFinding_if_singleton]
  split
  · rw [if_neg]
    intro hEq
    exact h (congrArg Prod.snd hEq)
  · rfl

theorem findings_eq (r : BranchProtectionRule) (repo : String) :
    findings r repo = checkApprovingReviews r repo ++ checkReviewDismissals r repo
      ++ checkForcePushes r repo ++ checkStatusChecks r repo := by
  simp [findings, validateS]

/-- Claim C7: for each of the three toggle/list pairs, validate produces exactly
one ERROR finding with that pair's message when the toggle has the stated value
and the list field is set, valid and non-empty, and produces no finding with
that pair's message when the list field is empty, unset, or invalid. -/
theorem C7_toggle_list_validation (r : BranchProtectionRule) (repo : String) :
    ((r.restrictsReviewDismissals = FieldValue.val false →
        ∀ l, r.reviewDismissalAllowances = FieldValue.val l → l ≠ [] →
          countFinding (FailureType.ERROR, reviewDismissalMsg repo (fvStr r.pattern))
            (findings r repo) = 1) ∧
      (r.reviewDismissalAllowances = FieldValue.val [] ∨
          r.reviewDismissalAllowances = FieldValue.unset ∨
          r.reviewDismissalAllowances = FieldValue.invalid →
        countFinding (FailureType.ERROR, reviewDismissalMsg repo (fvStr r.pattern))
          (findings r repo) = 0)) ∧
    ((r.allowsForcePushes = FieldValue.val true →
        ∀ l, r.bypassForcePushAllowances = FieldValue.val l → l ≠ [] →
          countFinding (FailureType.ERROR, forcePushMsg repo (fvStr r.pattern))
            (findings r repo) = 1) ∧
      (r.bypassForcePushAllowances = FieldValue.val [] ∨
          r.bypassForcePushAllowances = FieldValue.unset ∨
          r.bypassForcePushAllowances = FieldValue.invalid →
        countFinding (FailureType.ERROR, forcePushMsg repo (fvStr r.pattern))
          (findings r repo) = 0)) ∧
    ((r.requiresStatusChecks = FieldValue.val false →
        ∀ l, r.requiredStatusChecks = FieldValue.val l → l ≠ [] →
          countFinding (FailureType.ERROR, statusChecksMsg repo (fvStr r.pattern))
            (findings r repo) = 1) ∧
      (r.requiredStatusChecks = FieldValue.val [] ∨
          r.requiredStatusChecks = FieldValue.unset ∨
          r.requiredStatusChecks = FieldValue.invalid →
        countFinding (FailureType.ERROR, statusChecksMsg repo (fvStr r.pattern))
          (findings r repo) = 0)) := by
  refine ⟨⟨?_, ?_⟩, ⟨?_, ?_⟩, ⟨?_, ?_⟩⟩
  · intro htog l hl hne
    have hc : cond2 r := by
      refine ⟨htog, by rw [hl]; rfl, ?_⟩
      rw [hl]
      simpa [fvLen] using List.length_pos.mpr hne
    rw [findings_eq, countFinding_append, countFinding_append, countFinding_append,
      count_checkApproving _ _ _ (msgNe12 repo _),
      count_checkForcePushes _ _ _ ((msgNe23 repo _).symm),
      count_checkStatusChecks _ _ _ ((msgNe24 repo _).symm)]
    unfold checkReviewDismissals
    rw [if_pos hc]
    simp [countFinding]
  · intro hdisj
    have hc : ¬ cond2 r := by
      rcases hdisj with h | h | h <;> simp [cond2, h, isSetAndValidFV, fvLen]
    rw [findings_eq, countFinding_append, countFinding_append, countFinding_append,
      count_checkApproving _ _ _ (msgNe12 repo _),
      count_checkForcePushes _ _ _ ((msgNe23 repo _).symm),
      count_checkStatusChecks _ _ _ ((msgNe24 repo _).symm)]
    unfold checkReviewDismissals
    rw [if_neg hc]
    simp [countFinding]
  · intro htog l hl hne
    have hc : cond3 r := by
      refine ⟨htog, by rw [hl]; rfl, ?_⟩
      rw [hl]
      simpa [fvLen] using List.length_pos.mpr hne
    rw [findings_eq, countFinding_append, countFinding_append, countFinding_append,
      count_checkApproving _ _ _ (msgNe13 repo _),
      count_checkReviewDismissals _ _ _ (msgNe23 repo _),
      count_checkStatusChecks _ _ _ ((msgNe34 repo _).symm)]
    unfold checkForcePushes
    rw [if_pos hc]
    simp [countFinding]
  · intro hdisj
    have hc : ¬ cond3 r := by
      rcases hdisj with h | h | h <;> simp [cond3, h, isSetAndValidFV, fvLen]
    rw [findings_eq, countFinding_append, countFinding_append, countFinding_append,
      count_checkApproving _ _ _ (msgNe13 repo _),
      count_checkReviewDismissals _ _ _ (msgNe23 repo _),
      count_checkStatusChecks _ _ _ ((msgNe34 repo _).symm)]
    unfold checkForcePushes
    rw [if_neg hc]
    simp [countFinding]
  · intro htog l hl hne
    have hc : cond4 r := by
      refine ⟨htog, by rw [hl]; rfl, ?_⟩
      rw [hl]
      simpa [fvLen] using List.length_pos.mpr hne
    rw [findings_eq, countFinding_append, countFinding_append, countFinding_append,
      count_checkApproving _ _ _ (msgNe14 repo _),
      count_checkReviewDismissals _ _ _ (msgNe24 repo _),
      count_checkForcePushes _ _ _ (msgNe34 repo _)]
    unfold checkStatusChecks
    rw [if_pos hc]
    simp [countFinding]
  · intro hdisj
    have hc : ¬ cond4 r := by
      rcases hdisj with h | h | h <;> simp [cond4, h, isSetAndValidFV, fvLen]
    rw [findings_eq, countFinding_append, countFinding_append, countFinding_append,
      count_checkApproving _ _ _ (msgNe14 repo _),
      count_checkReviewDismissals _ _ _ (msgNe24 repo _),
      count_checkForcePushes _ _ _ (msgNe34 repo _)]
    unfold checkStatusChecks
    rw [if_neg hc]
    simp [countFinding]

theorem C7_toggle_list_validation_witness :
    countFinding (FailureType.ERROR, reviewDismissalMsg "test-repo" (fvStr rulePair2.pattern))
      (findings rulePair2 "test-repo") = 1 ∧
    countFinding (FailureType.ERROR, reviewDismissalMsg "test-repo" (fvStr rulePair2e.pattern))
      (findings rulePair2e "test-repo") = 0 ∧
    countFinding (FailureType.ERROR, forcePushMsg "test-repo" (fvStr rulePair3.pattern))
      (findings rulePair3 "test-repo") = 1 ∧
    countFinding (FailureType.ERROR, forcePushMsg "test-repo" (fvStr rulePair3u.pattern))
      (findings rulePair3u "test-repo") = 0 ∧
    countFinding (FailureType.ERROR, statusChecksMsg "test-repo" (fvStr rulePair4.pattern))
      (findings rulePair4 "test-repo") = 1 ∧
    countFinding (FailureType.ERROR, statusChecksMsg "test-repo" (fvStr rulePair4i.pattern))
      (findings rulePair4i "test-repo") = 0 :=
  ⟨(C7_toggle_list_validation rulePair2 "test-repo").1.1 (by rfl) ["alice"] (by rfl) (by decide),
   (C7_toggle_list_validation rulePair2e "test-repo").1.2 (Or.inl (by rfl)),
   (C7_toggle_list_validation rulePair3 "test-repo").2.1.1 (by rfl) ["bob"] (by rfl) (by decide),
   (C7_toggle_list_validation rulePair3u "test-repo").2.1.2 (Or.inr (Or.inl (by rfl))),
   (C7_toggle_list_validation rulePair4 "test-repo").2.2.1 (by rfl) ["ci"] (by rfl) (by decide),
   (C7_toggle_list_validation rulePair4i "test-repo").2.2.2 (Or.inr (Or.inr (by rfl)))⟩

theorem alookup_map_self (l : List String) (g : String → JVal) (k : String) (h : k ∈ l) :
    alookup (l.map (fun k2 => (k2, g k2))) k = some (g k) := by
  induction l with
  | nil => cases h
  | cons a as ih =>
    by_cases hk : k = a
    · subst hk
      simp [alookup]
    · simp only [List.map_cons, alookup, if_neg hk]
      exact ih (Or.resolve_left (List.mem_cons.mp h) hk)

theorem bendFields_missing (fields : List String) (data : JDict)
    (hok : ∀ k, k ∈ fields → ∀ v, alookup data k = some v →
      ∃ v2, fieldTransform k v = Except.ok v2) :
    ∀ k, k ∈ fields → alookup data k = none →
    ∃ j, j ∈ fields ∧ alookup data j = none ∧
      bendFields fields data = .error (.missingField j) := by
  induction fields with
  | nil =>
    intro k hk
    cases hk
  | cons a as ih =>
    intro k hk hnone
    cases hla : alookup data a with
    | none =>
      refine ⟨a, List.mem_cons_self a as, hla, ?_⟩
      simp [bendFields, hla]
    | some v =>
      have hk2 : k ∈ as := by
        rcases List.mem_cons.mp hk with h | h
        · rw [h, hla] at hnone
          cases hnone
        · exact h
      obtain ⟨v2, hv2⟩ := hok a (List.mem_cons_self a as) v hla
      obtain ⟨j, hj, hjn, hbend⟩ :=
        ih (fun k3 hk3 => hok k3 (List.mem_cons_of_mem a hk3)) k hk2 hnone
      refine ⟨j, List.mem_cons_of_mem a hj, hjn, ?_⟩
      simp [bendFields, hla, hv2, hbend]

/-- Claim C8: for every declared field, from_model applied to a raw-config dict
lacking that key yields an instance whose field holds the UNSET sentinel (which
is neither false nor None) without any error; from_provider applied to a
provider response lacking that key fails with a missing-field error that
propagates to the caller (the error names the first missing declared field). -/
theorem C8_unset_vs_missing_field (data : JDict) (k : String)
    (hk : k ∈ allFieldNames) (hmiss : alookup data k = none)
    (hshape : ∀ v, alookup data "requiredStatusChecks" = some v →
      ∃ v2, forallTransformApp v = Except.ok v2) :
    alookup (from_model data) k = some JVal.unset ∧
    JVal.unset ≠ JVal.bool false ∧ JVal.unset ≠ JVal.null ∧
    ∃ j, j ∈ allFieldNames ∧ alookup data j = none ∧
      from_provider data = .error (.missingField j) := by
  refine ⟨?_, fun h => JVal.noConfusion h, fun h => JVal.noConfusion h, ?_⟩
  · unfold from_model
    rw [alookup_map_self allFieldNames _ k hk]
    simp [dataGetD, hmiss]
  · refine bendFields_missing allFieldNames data ?_ k hk hmiss
    intro k2 hk2 v hv
    by_cases hc : k2 = "requiredStatusChecks"
    · subst hc
      obtain ⟨v2, h2⟩ := hshape v hv
      exact ⟨v2, by simp [fieldTransform, h2]⟩
    · exact ⟨v, by simp [fieldTransform, hc]⟩

theorem alookup_append {β : Type} (xs ys : List (String × β)) (k : String) :
    alookup (xs ++ ys) k =
      match alookup xs k with
      | some v => some v
      | none => alookup ys k := by
  induction xs with
  | nil => rfl
  | cons kv rest ih =>
    obtain ⟨k2, v⟩ := kv
    by_cases hk : k = k2
    · simp [alookup, hk]
    · simp [alookup, hk, ih]

theorem alookup_filter_ne {β : Type} (m : List (String × β)) (fn k : String) (h : k ≠ fn) :
    alookup (m.filter (fun kv => decide (kv.1 ≠ fn))) k = alookup m k := by
  induction m with
  | nil => rfl
  | cons kv rest ih =>
    obtain ⟨k2, v⟩ := kv
    simp only [ne_eq, decide_not] at ih ⊢
    by_cases hk2 : k2 = fn
    · subst hk2
      simp [List.filter, alookup, ih, h]
    · by_cases hk : k = k2
      · subst hk
        simp [List.filter, hk2, alookup]
      · simp [List.filter, hk2, alookup, hk, ih]

theorem alookup_filter_self {β : Type} (m : List (String × β)) (fn : String) :
    alookup (m.filter (fun kv => decide (kv.1 ≠ fn))) fn = none := by
  induction m with
  | nil => rfl
  | cons kv rest ih =>
    obtain ⟨k2, v⟩ := kv
    simp only [ne_eq, decide_not] at ih ⊢
    by_cases hk2 : k2 = fn
    · simp [List.filter, hk2, ih]
    · have hne : fn ≠ k2 := fun hEq => hk2 hEq.symm
      simp [List.filter, hk2, alookup, hne, ih]

theorem alookup_initialMappingAux (data : JDict) (l : List String) (k : String) (h : k ∉ l) :
    alookup (initialMappingAux data l) k = none := by
  induction l with
  | nil => rfl
  | cons a as ih =>
    have hka : k ≠ a := fun hEq => h (hEq ▸ List.mem_cons_self a as)
    have has : k ∉ as := fun hm => h (List.mem_cons_of_mem a hm)
    unfold initialMappingAux
    split
    · exact ih has
    · simp [alookup, hka, ih has]

theorem alookup_map_eval (data : JDict) (m : List (String × Bender)) (k : String) :
    alookup (m.map (fun kv => (kv.1, evalBender data kv.2))) k =
      (alookup m k).map (evalBender data) := by
  induction m with
  | nil => rfl
  | cons kv rest ih =>
    obtain ⟨k2, b⟩ := kv
    by_cases hk : k = k2
    · simp [alookup, hk]
    · simp [alookup, hk, ih]

theorem popKey_ok (m m1 : List (String × Bender)) (fn : String)
    (h : popKey m fn = .ok m1) :
    m1 = m.filter (fun kv => decide (kv.1 ≠ fn)) := by
  unfold popKey at h
  split at h
  · injection h with h2
    exact h2.symm
  · cases h

theorem containsKey_of_some {β : Type} (d : List (String × β)) (k : String) (v : β)
    (h : alookup d k = some v) : containsKey d k = true := by
  simp [containsKey, h]

theorem dataGetD_of_some (data : JDict) (k : String) (v : JVal)
    (h : alookup data k = some v) : dataGetD data k = v := by
  simp [dataGetD, h]

theorem strList_map_str (refs : List String) : strList? (refs.map JVal.str) = some refs := by
  induction refs with
  | nil => rfl
  | cons a as ih => simp [strList?, ih]

theorem asStrList_map_str (refs : List String) :
    asStrList (JVal.list (refs.map JVal.str)) = some refs := by
  simp [asStrList, strList_map_str]

theorem lengthPos_eq_not_isEmpty {α : Type} (l : List α) :
    (if l.length > 0 then true else false) = !l.isEmpty := by
  cases l <;> simp

theorem checkToJVal_encodeCheck (ids : String → String) (t : String) :
    checkToJVal (encodeCheck ids t) =
      JVal.wcheck (if tokenSlugOf t = "any" then "any" else ids (tokenSlugOf t))
        (tokenCtxOf t) := by
  unfold checkToJVal encodeCheck tokenSlugOf tokenCtxOf
  cases h : splitFirstColon t with
  | none => simp [h]
  | some pr =>
    obtain ⟨sl, c⟩ := pr
    by_cases hsl : sl = "any" <;> simp [h, hsl]

theorem actorBlock_lookup (p : Provider) (data : JDict) (fn tn : String)
    (m m2 : List (String × Bender)) (alog alog2 : List (List String))
    (hrun : actorBlock p data fn tn m alog = .ok (m2, alog2))
    (k : String) (hkfn : k ≠ fn) (hktn : k ≠ tn) :
    alookup m2 k = alookup m k := by
  unfold actorBlock at hrun
  by_cases hc : containsKey data fn = true
  · rw [if_pos hc] at hrun
    cases hpop : popKey m fn with
    | error e =>
      simp only [hpop] at hrun
      exact Except.noConfusion hrun
    | ok m1 =>
      simp only [hpop] at hrun
      have hm1 : m1 = m.filter (fun kv => decide (kv.1 ≠ fn)) := popKey_ok m m1 fn hpop
      by_cases hsv : isSetAndValidJ (dataGetD data fn) = true
      · rw [if_pos hsv] at hrun
        cases hsl : asStrList (dataGetD data fn) with
        | none =>
          simp only [hsl] at hrun
          exact Except.noConfusion hrun
        | some refs =>
          simp only [hsl, Except.ok.injEq, Prod.mk.injEq] at hrun
          obtain ⟨h1, -⟩ := hrun
          rw [← h1, hm1, alookup_append, alookup_filter_ne m fn k hkfn]
          cases halk : alookup m k with
          | some v => rfl
          | none => simp [alookup, hktn]
      · rw [if_neg hsv] at hrun
        simp only [Except.ok.injEq, Prod.mk.injEq] at hrun
        obtain ⟨h1, -⟩ := hrun
        rw [← h1, hm1]
        exact alookup_filter_ne m fn k hkfn
  · rw [if_neg hc] at hrun
    simp only [Except.ok.injEq, Prod.mk.injEq] at hrun
    obtain ⟨h1, -⟩ := hrun
    rw [← h1]

theorem statusChecksBlock_lookup (p : Provider) (data : JDict)
    (m m2 : List (String × Bender)) (qlog qlog2 : List (Finset String))
    (hrun : statusChecksBlock p data m qlog = .ok (m2, qlog2))
    (k : String) (hk : k ≠ "requiredStatusChecks") :
    alookup m2 k = alookup m k := by
  unfold statusChecksBlock at hrun
  by_cases hc : containsKey data "requiredStatusChecks" = true
  · rw [if_pos hc] at hrun
    cases hpop : popKey m "requiredStatusChecks" with
    | error e =>
      simp only [hpop] at hrun
      exact Except.noConfusion hrun
    | ok m1 =>
      simp only [hpop] at hrun
      have hm1 : m1 = m.filter (fun kv => decide (kv.1 ≠ "requiredStatusChecks")) :=
        popKey_ok m m1 _ hpop
      by_cases hsv : isSetAndValidJ (dataGetD data "requiredStatusChecks") = true
      · rw [if_pos hsv] at hrun
        cases hsl : asStrList (dataGetD data "requiredStatusChecks") with
        | none =>
          simp only [hsl] at hrun
          exact Except.noConfusion hrun
        | some checks =>
          simp only [hsl, Except.ok.injEq, Prod.mk.injEq] at hrun
          obtain ⟨h1, -⟩ := hrun
          rw [← h1, hm1, alookup_append, alookup_filter_ne m _ k hk]
          cases halk : alookup m k with
          | some v => rfl
          | none => simp [alookup, hk]
      · rw [if_neg hsv] at hrun
        simp only [Except.ok.injEq, Prod.mk.injEq] at hrun
        obtain ⟨h1, -⟩ := hrun
        rw [← h1, hm1]
        exact alookup_filter_ne m _ k hk
  · rw [if_neg hc] at hrun
    simp only [Except.ok.injEq, Prod.mk.injEq] at hrun
    obtain ⟨h1, -⟩ := hrun
    rw [← h1]

theorem pushRestrictionsBlock_pos (p : Provider) (data : JDict) (refs : List String)
    (hpr : alookup data "pushRestrictions" = some (JVal.list (refs.map JVal.str)))
    (m m2 : List (String × Bender)) (alog alog2 : List (List String))
    (hrun : pushRestrictionsBlock p data m alog = .ok (m2, alog2)) :
    m2 = m.filter (fun kv => decide (kv.1 ≠ "pushRestrictions")) ++
        [("pushActorIds", Bender.K (JVal.list ((refs.map p.actorId).map JVal.str))),
         ("restrictsPushes", Bender.K (JVal.bool
           (if (refs.map p.actorId).length > 0 then true else false)))] ∧
      alog2 = alog ++ [refs] := by
  have hc : containsKey data "pushRestrictions" = true := containsKey_of_some _ _ _ hpr
  have hv : dataGetD data "pushRestrictions" = JVal.list (refs.map JVal.str) :=
    dataGetD_of_some _ _ _ hpr
  unfold pushRestrictionsBlock at hrun
  rw [if_pos hc] at hrun
  cases hpop : popKey m "pushRestrictions" with
  | error e =>
    simp only [hpop] at hrun
    exact Except.noConfusion hrun
  | ok m1 =>
    have hm1 : m1 = m.filter (fun kv => decide (kv.1 ≠ "pushRestrictions")) :=
      popKey_ok m m1 _ hpop
    simp only [hpop, hv, isSetAndValidJ, asStrList_map_str, if_true,
      Except.ok.injEq, Prod.mk.injEq] at hrun
    obtain ⟨h1, h2⟩ := hrun
    exact ⟨by rw [← h1, hm1], h2.symm⟩

theorem statusChecksBlock_pos (p : Provider) (data : JDict) (checks : List String)
    (hrs : alookup data "requiredStatusChecks" = some (JVal.list (checks.map JVal.str)))
    (m m2 : List (String × Bender)) (qlog qlog2 : List (Finset String))
    (hrun : statusChecksBlock p data m qlog = .ok (m2, qlog2)) :
    m2 = m.filter (fun kv => decide (kv.1 ≠ "requiredStatusChecks")) ++
        [("requiredStatusChecks",
          Bender.K (JVal.list ((checks.map (encodeCheck p.appId)).map checkToJVal)))] ∧
      qlog2 = qlog ++ [collectAppSlugs checks] := by
  have hc : containsKey data "requiredStatusChecks" = true := containsKey_of_some _ _ _ hrs
  have hv : dataGetD data "requiredStatusChecks" = JVal.list (checks.map JVal.str) :=
    dataGetD_of_some _ _ _ hrs
  unfold statusChecksBlock at hrun
  rw [if_pos hc] at hrun
  cases hpop : popKey m "requiredStatusChecks" with
  | error e =>
    simp only [hpop] at hrun
    exact Except.noConfusion hrun
  | ok m1 =>
    have hm1 : m1 = m.filter (fun kv => decide (kv.1 ≠ "requiredStatusChecks")) :=
      popKey_ok m m1 _ hpop
    simp only [hpop, hv, isSetAndValidJ, asStrList_map_str, if_true,
      Except.ok.injEq, Prod.mk.injEq] at hrun
    obtain ⟨h1, h2⟩ := hrun
    exact ⟨by rw [← h1, hm1], h2.symm⟩

/-- Claim C6: when pushRestrictions is present, set and valid, _to_provider
removes the human-readable field from the payload, injects pushActorIds with
the order-preserving resolved identifier list, and injects a restrictsPushes
boolean that is true exactly when the resolved identifier list is non-empty
(so an empty pushRestrictions list yields restrictsPushes = false). -/
theorem C6_push_restrictions_flag (p : Provider) (data : JDict) (refs : List String)
    (payload : JDict) (alog : List (List String)) (qlog : List (Finset String))
    (hpr : alookup data "pushRestrictions" = some (JVal.list (refs.map JVal.str)))
    (hrun : to_provider p data = .ok (payload, alog, qlog)) :
    alookup payload "pushRestrictions" = none ∧
    alookup payload "pushActorIds" = some (JVal.list ((refs.map p.actorId).map JVal.str)) ∧
    alookup payload "restrictsPushes" = some (JVal.bool (!(refs.map p.actorId).isEmpty)) := by
  unfold to_provider at hrun
  cases h1 : pushRestrictionsBlock p data (initialMapping data) [] with
  | error e =>
    simp only [h1] at hrun
    exact Except.noConfusion hrun
  | ok res1 =>
  obtain ⟨m1, alog1⟩ := res1
  simp only [h1] at hrun
  cases h2 : actorBlock p data "reviewDismissalAllowances" "reviewDismissalActorIds" m1 alog1 with
  | error e =>
    simp only [h2] at hrun
    exact Except.noConfusion hrun
  | ok res2 =>
  obtain ⟨m2, alog2⟩ := res2
  simp only [h2] at hrun
  cases h3 : actorBlock p data "bypassPullRequestAllowances" "bypassPullRequestActorIds" m2 alog2 with
  | error e =>
    simp only [h3] at hrun
    exact Except.noConfusion hrun
  | ok res3 =>
  obtain ⟨m3, alog3⟩ := res3
  simp only [h3] at hrun
  cases h4 : actorBlock p data "bypassForcePushAllowances" "bypassForcePushActorIds" m3 alog3 with
  | error e =>
    simp only [h4] at hrun
    exact Except.noConfusion hrun
  | ok res4 =>
  obtain ⟨m4, alog4⟩ := res4
  simp only [h4] at hrun
  cases h5 : statusChecksBlock p data m4 [] with
  | error e =>
    simp only [h5] at hrun
    exact Except.noConfusion hrun
  | ok res5 =>
  obtain ⟨m5, qlog5⟩ := res5
  simp only [h5, Except.ok.injEq, Prod.mk.injEq] at hrun
  obtain ⟨hpay, -, -⟩ := hrun
  obtain ⟨hm1, -⟩ := pushRestrictionsBlock_pos p data refs hpr _ _ _ _ h1
  have chain : ∀ k : String, k ≠ "reviewDismissalAllowances" → k ≠ "reviewDismissalActorIds" →
      k ≠ "bypassPullRequestAllowances" → k ≠ "bypassPullRequestActorIds" →
      k ≠ "bypassForcePushAllowances" → k ≠ "bypassForcePushActorIds" →
      k ≠ "requiredStatusChecks" → alookup m5 k = alookup m1 k := by
    intro k ha hb hc2 hd he hf hg
    rw [statusChecksBlock_lookup p data m4 m5 [] qlog5 h5 k hg,
      actorBlock_lookup p data _ _ m3 m4 alog3 alog4 h4 k he hf,
      actorBlock_lookup p data _ _ m2 m3 alog2 alog3 h3 k hc2 hd,
      actorBlock_lookup p data _ _ m1 m2 alog1 alog2 h2 k ha hb]
  have hpa : alookup m5 "pushActorIds" =
      some (Bender.K (JVal.list ((refs.map p.actorId).map JVal.str))) := by
    rw [chain "pushActorIds" (by decide) (by decide) (by decide) (by decide) (by decide)
        (by decide) (by decide),
      hm1, alookup_append, alookup_filter_ne _ _ _ (by decide)]
    rw [show alookup (initialMapping data) "pushActorIds" = none from
      alookup_initialMappingAux data providerFieldNames _ (by decide)]
    simp [alookup]
  have hrp : alookup m5 "restrictsPushes" =
      some (Bender.K (JVal.bool (if (refs.map p.actorId).length > 0 then true else false))) := by
    rw [chain "restrictsPushes" (by decide) (by decide) (by decide) (by decide) (by decide)
        (by decide) (by decide),
      hm1, alookup_append, alookup_filter_ne _ _ _ (by decide)]
    rw [show alookup (initialMapping data) "restrictsPushes" = none from
      alookup_initialMappingAux data providerFieldNames _ (by decide)]
    simp [alookup]
  have hpr2 : alookup m5 "pushRestrictions" = none := by
    rw [chain "pushRestrictions" (by decide) (by decide) (by decide) (by decide) (by decide)
        (by decide) (by decide),
      hm1, alookup_append, alookup_filter_self]
    simp [alookup]
  refine ⟨?_, ?_, ?_⟩
  · rw [← hpay, alookup_map_eval, hpr2]
    rfl
  · rw [← hpay, alookup_map_eval, hpa]
    rfl
  · rw [← hpay, alookup_map_eval, hrp, lengthPos_eq_not_isEmpty]
    rfl

theorem C6_push_restrictions_flag_witness :
    alookup wPayloadC6 "pushRestrictions" = none ∧
    alookup wPayloadC6 "pushActorIds" =
      some (JVal.list ((["team-a"].map wProvC.actorId).map JVal.str)) ∧
    alookup wPayloadC6 "restrictsPushes" =
      some (JVal.bool (!(["team-a"].map wProvC.actorId).isEmpty)) :=
  C6_push_restrictions_flag wProvC wDataC6 ["team-a"] wPayloadC6 [["team-a"]] []
    (by rfl) (by rfl)

/-- Claim C5: when _to_provider encodes a set-and-valid requiredStatusChecks
list, the resolver's app-id lookup is invoked exactly once, with the set of
distinct app slugs referenced across the whole list (bare tokens contributing
the default-automation slug and the literal any excluded), and every entry of
the output list carries the appId corresponding to its own token's slug
(resolved id, or the sentinel for any). -/
theorem C5_batched_resolution (p : Provider) (data : JDict) (checks : List String)
    (payload : JDict) (alog : List (List String)) (qlog : List (Finset String))
    (hrs : alookup data "requiredStatusChecks" = some (JVal.list (checks.map JVal.str)))
    (hrun : to_provider p data = .ok (payload, alog, qlog)) :
    qlog = [(checks.map tokenSlugOf).toFinset.erase "any"] ∧
    alookup payload "requiredStatusChecks" =
      some (JVal.list (checks.map (fun t =>
        JVal.wcheck (if tokenSlugOf t = "any" then "any" else p.appId (tokenSlugOf t))
          (tokenCtxOf t)))) := by
  unfold to_provider at hrun
  cases h1 : pushRestrictionsBlock p data (initialMapping data) [] with
  | error e =>
    simp only [h1] at hrun
    exact Except.noConfusion hrun
  | ok res1 =>
  obtain ⟨m1, alog1⟩ := res1
  simp only [h1] at hrun
  cases h2 : actorBlock p data "reviewDismissalAllowances" "reviewDismissalActorIds" m1 alog1 with
  | error e =>
    simp only [h2] at hrun
    exact Except.noConfusion hrun
  | ok res2 =>
  obtain ⟨m2, alog2⟩ := res2
  simp only [h2] at hrun
  cases h3 : actorBlock p data "bypassPullRequestAllowances" "bypassPullRequestActorIds" m2 alog2 with
  | error e =>
    simp only [h3] at hrun
    exact Except.noConfusion hrun
  | ok res3 =>
  obtain ⟨m3, alog3⟩ := res3
  simp only [h3] at hrun
  cases h4 : actorBlock p data "bypassForcePushAllowances" "bypassForcePushActorIds" m3 alog3 with
  | error e =>
    simp only [h4] at hrun
    exact Except.noConfusion hrun
  | ok res4 =>
  obtain ⟨m4, alog4⟩ := res4
  simp only [h4] at hrun
  cases h5 : statusChecksBlock p data m4 [] with
  | error e =>
    simp only [h5] at hrun
    exact Except.noConfusion hrun
  | ok res5 =>
  obtain ⟨m5, qlog5⟩ := res5
  simp only [h5, Except.ok.injEq, Prod.mk.injEq] at hrun
  obtain ⟨hpay, -, hq⟩ := hrun
  obtain ⟨hm5, hqlog5⟩ := statusChecksBlock_pos p data checks hrs _ _ _ _ h5
  constructor
  · rw [← hq, hqlog5, collectAppSlugs_eq]
    rfl
  · have hrsc : alookup m5 "requiredStatusChecks" =
        some (Bender.K (JVal.list ((checks.map (encodeCheck p.appId)).map checkToJVal))) := by
      rw [hm5, alookup_append, alookup_filter_self]
      simp [alookup]
    rw [← hpay, alookup_map_eval, hrsc]
    show some (JVal.list ((checks.map (encodeCheck p.appId)).map checkToJVal)) = _
    rw [List.map_map]
    have hfun : (checkToJVal ∘ encodeCheck p.appId) = fun t =>
        JVal.wcheck (if tokenSlugOf t = "any" then "any" else p.appId (tokenSlugOf t))
          (tokenCtxOf t) :=
      funext fun t => checkToJVal_encodeCheck p.appId t
    rw [hfun]

theorem C5_batched_resolution_witness :
    [collectAppSlugs ["any:ci", "myapp:build", "deploy"]] =
      [((["any:ci", "myapp:build", "deploy"].map tokenSlugOf).toFinset.erase "any")] ∧
    alookup wPayloadC5 "requiredStatusChecks" =
      some (JVal.list (["any:ci", "myapp:build", "deploy"].map (fun t =>
        JVal.wcheck (if tokenSlugOf t = "any" then "any" else wProvC.appId (tokenSlugOf t))
          (tokenCtxOf t)))) :=
  C5_batched_resolution wProvC wDataC5 ["any:ci", "myapp:build", "deploy"] wPayloadC5 []
    [collectAppSlugs ["any:ci", "myapp:build", "deploy"]] (by rfl) (by rfl)

theorem C8_unset_vs_missing_field_witness :
    alookup (from_model wDataC8) "lockBranch" = some JVal.unset ∧
    JVal.unset ≠ JVal.bool false ∧ JVal.unset ≠ JVal.null ∧
    ∃ j, j ∈ allFieldNames ∧ alookup wDataC8 j = none ∧
      from_provider wDataC8 = .error (.missingField j) :=
  C8_unset_vs_missing_field wDataC8 "lockBranch" (by decide) (by rfl)
    (fun v h => Option.noConfusion (show (none : Option JVal) = some v from h))

end Otterdog
